import Mathlib

/-! # Terrain viewer (`assets/js/background.js`): navigation and frame loop

A shallow embedding of the navigation controller (the `keydown` handler,
`getTransformQuat`, `updateView`) and of the matrix-stack discipline of `draw`,
followed by the properties stated for them.

Numbers are elements of a linearly ordered field `α`; the functions of the
JavaScript `Math` object that the program calls are collected in `MathObj`,
so that every definition can be evaluated over `ℚ`, and the theorems about
square roots and trigonometry are stated over `ℝ` with `realMath`.
-/

namespace Background

/-- The members of JavaScript's `Math` object used by the program. -/
structure MathObj (α : Type) where
  sqrt : α → α
  cos : α → α
  sin : α → α
  PI : α

/-- The `Math` object over the real numbers. -/
noncomputable def realMath : MathObj ℝ :=
  { sqrt := Real.sqrt, cos := Real.cos, sin := Real.sin, PI := Real.pi }

/-- A `Math` object over the rationals: it is exact at the arguments `0` and `1`
only, and serves to evaluate the definitions there. -/
def ratMath : MathObj ℚ :=
  { sqrt := fun x => x, cos := fun _ => 1, sin := fun _ => 0, PI := 0 }

/-- A gl-matrix `vec3`: three numbers. -/
@[ext] structure Vec3 (α : Type) where
  x : α
  y : α
  z : α
deriving DecidableEq, Repr

/-- A gl-matrix `quat`: `[x, y, z, w]`, with `w` the scalar part. -/
@[ext] structure Quat (α : Type) where
  x : α
  y : α
  z : α
  w : α
deriving DecidableEq, Repr

variable {α : Type} [LinearOrderedField α]

/-! ## gl-matrix

The program calls the gl-matrix library, which is not part of
`background.js`. Its functions are arrays of numbers updated in place; here they
return the new value of their `out` argument. -/

/-- Modelled from the spec: gl-matrix is not under `src/`. `vec3.create()` is
the zero vector. -/
def vec3.create : Vec3 α := ⟨0, 0, 0⟩

/-- Modelled from the spec: gl-matrix is not under `src/`.
`vec3.fromValues(x, y, z)`. -/
def vec3.fromValues (x y z : α) : Vec3 α := ⟨x, y, z⟩

/-- Modelled from the spec: gl-matrix is not under `src/`. `vec3.clone(a)` is a
fresh array with the components of `a`. -/
def vec3.clone (a : Vec3 α) : Vec3 α := ⟨a.x, a.y, a.z⟩

/-- Modelled from the spec: gl-matrix is not under `src/`. `vec3.copy(out, a)`. -/
def vec3.copy (a : Vec3 α) : Vec3 α := ⟨a.x, a.y, a.z⟩

/-- Modelled from the spec: gl-matrix is not under `src/`.
`vec3.add(out, a, b)`. -/
def vec3.add (a b : Vec3 α) : Vec3 α := ⟨a.x + b.x, a.y + b.y, a.z + b.z⟩

/-- Modelled from the spec: gl-matrix is not under `src/`.
`vec3.scale(out, a, b)`. -/
def vec3.scale (a : Vec3 α) (b : α) : Vec3 α := ⟨a.x * b, a.y * b, a.z * b⟩

/-- Modelled from the spec: gl-matrix is not under `src/`. `vec3.dot(a, b)`. -/
def vec3.dot (a b : Vec3 α) : α := a.x * b.x + a.y * b.y + a.z * b.z

/-- Modelled from the spec: gl-matrix is not under `src/`.
`vec3.cross(out, a, b)`. -/
def vec3.cross (a b : Vec3 α) : Vec3 α :=
  ⟨a.y * b.z - a.z * b.y, a.z * b.x - a.x * b.z, a.x * b.y - a.y * b.x⟩

/-- Modelled from the spec: gl-matrix is not under `src/`.
`vec3.squaredLength(a)`. -/
def vec3.squaredLength (a : Vec3 α) : α := a.x * a.x + a.y * a.y + a.z * a.z

/-- Modelled from the spec: gl-matrix is not under `src/`. `vec3.length(a)`. -/
def vec3.length (m : MathObj α) (a : Vec3 α) : α := m.sqrt (vec3.squaredLength a)

/-- Modelled from the spec: gl-matrix is not under `src/`.
`vec3.distance(a, b)`. -/
def vec3.distance (m : MathObj α) (a b : Vec3 α) : α :=
  let x := b.x - a.x
  let y := b.y - a.y
  let z := b.z - a.z
  m.sqrt (x * x + y * y + z * z)

/-- Modelled from the spec: gl-matrix is not under `src/`.
`vec3.transformQuat(out, a, q)`, "rotating the vector by the quaternion": the
library computes `q * a` and multiplies the result by the conjugate of `q`. -/
def vec3.transformQuat (a : Vec3 α) (q : Quat α) : Vec3 α :=
  let x := a.x
  let y := a.y
  let z := a.z
  let qx := q.x
  let qy := q.y
  let qz := q.z
  let qw := q.w
  let ix := qw * x + qy * z - qz * y
  let iy := qw * y + qz * x - qx * z
  let iz := qw * z + qx * y - qy * x
  let iw := -qx * x - qy * y - qz * z
  ⟨ix * qw + iw * -qx + iy * -qz - iz * -qy,
   iy * qw + iw * -qy + iz * -qx - ix * -qz,
   iz * qw + iw * -qz + ix * -qy - iy * -qx⟩

/-- Modelled from the spec: gl-matrix is not under `src/`.
`quat.fromValues(x, y, z, w)`. -/
def quat.fromValues (x y z w : α) : Quat α := ⟨x, y, z, w⟩

/-- Modelled from the spec: gl-matrix is not under `src/`.
`quat.multiply(out, a, b)`, the Hamilton product `a * b`. -/
def quat.multiply (a b : Quat α) : Quat α :=
  ⟨a.x * b.w + a.w * b.x + a.y * b.z - a.z * b.y,
   a.y * b.w + a.w * b.y + a.z * b.x - a.x * b.z,
   a.z * b.w + a.w * b.z + a.x * b.y - a.y * b.x,
   a.w * b.w - a.x * b.x - a.y * b.y - a.z * b.z⟩

/-- Modelled from the spec: gl-matrix is not under `src/`.
`quat.squaredLength(a)`. -/
def quat.squaredLength (a : Quat α) : α := a.x * a.x + a.y * a.y + a.z * a.z + a.w * a.w

/-- Modelled from the spec: gl-matrix is not under `src/`. `quat.length(a)`,
the norm of the quaternion. -/
def quat.length (m : MathObj α) (a : Quat α) : α := m.sqrt (quat.squaredLength a)

/-- Modelled from the spec: gl-matrix is not under `src/`.
`quat.normalize(out, a)` called with `out` and `a` the same array: a non-zero
quaternion is scaled by the inverse of its norm, the zero quaternion is left as
it is. -/
def quat.normalize (m : MathObj α) (a : Quat α) : Quat α :=
  let x := a.x
  let y := a.y
  let z := a.z
  let w := a.w
  let len := x * x + y * y + z * z + w * w
  if len > 0 then
    let len := 1 / m.sqrt len
    ⟨x * len, y * len, z * len, w * len⟩
  else a

/-! ## Navigation state -/

/-- The global variables of the navigation controller. -/
structure State (α : Type) where
  position : Vec3 α
  speed : α
  rotation : Quat α
  defaultViewDir : Vec3 α
  viewDir : Vec3 α
  defaultUpDir : Vec3 α
  upDir : Vec3 α

/-- The globals after the top-level statements of the script have run. -/
def initialState (m : MathObj α) : State α :=
  { position := vec3.fromValues (-1.25) (-0.25) (-1.5)
    speed := 0.0005
    rotation := quat.normalize m (quat.fromValues 0.0 0.2 0.0 1.0)
    defaultViewDir := vec3.fromValues 1.0 0.0 0.0
    viewDir := vec3.create
    defaultUpDir := vec3.fromValues 0.0 0.0 1.0
    upDir := vec3.create }

/-- The function `getTransformQuat(axis, rotation, degree)`. -/
def getTransformQuat (m : MathObj α) (axis : Vec3 α) (rotation : Quat α) (degree : α) : Quat α :=
  let c := m.cos (degree * (m.PI / 180) / 2)
  let s := m.sin (degree * (m.PI / 180) / 2)
  let vec := vec3.clone axis
  let vec := vec3.transformQuat vec rotation
  let transform := quat.fromValues (vec.x * s) (vec.y * s) (vec.z * s) c
  quat.normalize m transform

/-- The `keydown` listener installed by `startup`, applied to an event with the
given `keyCode`. -/
def keydown (m : MathObj α) (keyCode : Nat) (st : State α) : State α :=
  let dSpeed : α := 0.0005
  let dPitch : α := 0.5
  let dRoll : α := 1.0
  if keyCode == 73 then
    { st with speed := st.speed + dSpeed }
  else if keyCode == 75 then
    let speed := st.speed - dSpeed
    { st with speed := if speed < 0 then 0 else speed }
  else if keyCode == 83 then
    { st with rotation :=
        (quat.multiply
          (getTransformQuat m (vec3.fromValues 0.0 1.0 0.0) st.rotation (-dPitch))
          st.rotation) }
  else if keyCode == 87 then
    { st with rotation :=
        (quat.multiply
          (getTransformQuat m (vec3.fromValues 0.0 1.0 0.0) st.rotation dPitch)
          st.rotation) }
  else if keyCode == 65 then
    { st with rotation :=
        (quat.multiply
          (getTransformQuat m (vec3.fromValues 1.0 0.0 0.0) st.rotation (-dRoll))
          st.rotation) }
  else if keyCode == 68 then
    { st with rotation :=
        (quat.multiply
          (getTransformQuat m (vec3.fromValues 1.0 0.0 0.0) st.rotation dRoll)
          st.rotation) }
  else st

/-- The function `updateView()`. -/
def updateView (st : State α) : State α :=
  let viewDir := vec3.copy st.defaultViewDir
  let viewDir := vec3.transformQuat viewDir st.rotation
  let upDir := vec3.copy st.defaultUpDir
  let upDir := vec3.transformQuat upDir st.rotation
  let delta := vec3.scale viewDir st.speed
  { st with viewDir := viewDir, upDir := upDir, position := vec3.add st.position delta }

/-- What can happen to the navigation state once `startup` has run: a key goes
down, or a frame is due and `tick` runs `updateView` (the `draw` that follows
reads `position`, `viewDir` and `upDir` and writes none of the navigation
globals). -/
inductive Event where
  | keydown (keyCode : Nat)
  | tick
deriving DecidableEq, Repr

/-- One event applied to the navigation state. -/
def step (m : MathObj α) (e : Event) (st : State α) : State α :=
  match e with
  | Event.keydown keyCode => keydown m keyCode st
  | Event.tick => updateView st

/-- The events of a list applied in order. -/
def run (m : MathObj α) (es : List Event) (st : State α) : State α :=
  es.foldl (fun s e => step m e s) st

/-! ## The frame: `draw` and the matrix stack -/

/-- Modelled from the spec: gl-matrix is not under `src/`. The two `mat4`
functions that `draw` applies to the model-view matrix, over a type `M` of
matrices: `mat4.lookAt(out, eye, center, up)` and `mat4.translate(out, a, v)`. -/
structure Mat4Lib (α M : Type) where
  lookAt : Vec3 α → Vec3 α → Vec3 α → M
  translate : M → Vec3 α → M

/-- The state of the `checked` property of the page's four checkboxes, which
`draw` reads through `document.getElementById`. -/
structure Checkboxes where
  polygon : Bool
  wirepoly : Bool
  wireframe : Bool
  fog : Bool
deriving DecidableEq, Repr

/-- The primitive of a draw call on the terrain. -/
inductive Primitive where
  | triangles
  | edges
deriving DecidableEq, Repr

/-- One draw call on the terrain, with the material uniforms set just before it:
the model-view matrix uploaded by `setMatrixUniforms`, the diffuse colour, the
height-colouring flag and the fog flag. -/
structure DrawCall (α M : Type) where
  primitive : Primitive
  mvMatrix : M
  kDiffuse : Vec3 α
  color : Bool
  fog : Bool

/-- The globals that `draw` writes: the model-view matrix and its stack (a
JavaScript array, its last element the top), and the draw calls issued so far. -/
structure RenderState (α M : Type) where
  mvMatrix : M
  mvMatrixStack : List M
  calls : List (DrawCall α M)

/-- Diffuse material colour of the terrain. -/
def kTerrainDiffuse : Vec3 α := ⟨205.0 / 255.0, 163.0 / 255.0, 63.0 / 255.0⟩

/-- Edge colour for the wireframe over the filled terrain. -/
def kEdgeBlack : Vec3 α := ⟨0.0, 0.0, 0.0⟩

/-- Edge colour for the wireframe alone. -/
def kEdgeWhite : Vec3 α := ⟨1.0, 1.0, 1.0⟩

/-- The function `mvPushMatrix()`: a copy (`mat4.clone`) of the model-view matrix is
appended to the stack. -/
def mvPushMatrix {M : Type} (r : RenderState α M) : RenderState α M :=
  let copy := r.mvMatrix
  { r with mvMatrixStack := r.mvMatrixStack ++ [copy] }

/-- The function `mvPopMatrix()`: throws on the empty stack, otherwise removes the
last element of the stack and makes it the model-view matrix. -/
def mvPopMatrix {M : Type} (r : RenderState α M) : Except String (RenderState α M) :=
  if h : r.mvMatrixStack.length = 0 then
    Except.error "Invalid popMatrix!"
  else
    Except.ok { r with
      mvMatrix := r.mvMatrixStack.getLast (fun e => h (by rw [e]; rfl))
      mvMatrixStack := r.mvMatrixStack.dropLast }

/-- Modelled from the spec: the class `Terrain` is not under `src/`; its
`drawTriangles()` and `drawEdges()` are "pure reads of immutable buffers", so a
call changes none of the globals and is recorded with the uniforms in force. -/
def terrainDraw {M : Type} (primitive : Primitive) (kDiffuse : Vec3 α) (color fog : Bool)
    (r : RenderState α M) : RenderState α M :=
  { r with calls := r.calls ++ [⟨primitive, r.mvMatrix, kDiffuse, color, fog⟩] }

/-- The function `draw()`, as far as the model-view matrix, its stack and the draw
calls go. The viewport, the projection matrix, the normal matrix and the light
uniforms are computed from these and written to other globals or to the GL
context only. -/
def draw {M : Type} (L : Mat4Lib α M) (cb : Checkboxes) (st : State α)
    (r : RenderState α M) : Except String (RenderState α M) :=
  let viewPt := vec3.add st.position st.viewDir
  let r := { r with mvMatrix := L.lookAt st.position viewPt st.upDir }
  let r := mvPushMatrix r
  let transformVec : Vec3 α := ⟨0.0, -0.25, -2.0⟩
  let r := { r with mvMatrix := L.translate r.mvMatrix transformVec }
  let fog := cb.fog
  let r := if cb.polygon || cb.wirepoly then
      terrainDraw Primitive.triangles kTerrainDiffuse true fog r
    else r
  let r := if cb.wirepoly then
      terrainDraw Primitive.edges kEdgeBlack false fog r
    else r
  let r := if cb.wireframe then
      terrainDraw Primitive.edges kEdgeWhite false fog r
    else r
  mvPopMatrix r

/-- The function `tick()`: `updateView()`, then (the next frame having been
requested) `draw()`. -/
def tick {M : Type} (L : Mat4Lib α M) (cb : Checkboxes) (st : State α)
    (r : RenderState α M) : Except String (State α × RenderState α M) :=
  let st := updateView st
  match draw L cb st r with
  | Except.ok r => Except.ok (st, r)
  | Except.error e => Except.error e

/-! ## Definitions used to state the properties -/

/-- The quaternion of a rotation by `degree` degrees about the axis `a`, as the
specification writes it: `(a * sin (degree * pi / 360), cos (degree * pi / 360))`. -/
def axisAngle (m : MathObj α) (a : Vec3 α) (degree : α) : Quat α :=
  ⟨a.x * m.sin (degree * m.PI / 360), a.y * m.sin (degree * m.PI / 360),
   a.z * m.sin (degree * m.PI / 360), m.cos (degree * m.PI / 360)⟩

/-- The initial state with the orientation `q` in place of the initial one. -/
def stateAt (m : MathObj α) (q : Quat α) : State α :=
  { initialState m with rotation := q }

/-- The frame handed to `mat4.lookAt` by `draw` is orthonormal: `viewDir` and
`upDir` have length 1, their dot product is 0, they are not parallel (their cross
product is not the zero vector), and the look-at target `position + viewDir` is
at distance 1 from the eye `position`. -/
def viewFrameOrthonormal (m : MathObj α) (st : State α) : Prop :=
  vec3.length m st.viewDir = 1 ∧ vec3.length m st.upDir = 1 ∧
  vec3.dot st.viewDir st.upDir = 0 ∧
  vec3.cross st.viewDir st.upDir ≠ vec3.create ∧
  vec3.distance m st.position (vec3.add st.position st.viewDir) = 1

/-! ## The terrain mesh -/

/-- Modelled from the spec: the class `Terrain` is not under `src/`. A height
field is "a square grid of `dim × dim` scalar elevations"; `height i j` is the
elevation of the grid cell `(i, j)` for `i, j < dim`. -/
structure HeightField (α : Type) where
  dim : Nat
  height : Nat → Nat → α

/-- Modelled from the spec: the class `Terrain` is not under `src/`. A grid
dimension is valid when it is `2 ^ n + 1` for some `n ≥ 1` (such an `n` is
smaller than the dimension). -/
def validDim (dim : Nat) : Prop := ∃ n : Nat, n < dim ∧ 1 ≤ n ∧ dim = 2 ^ n + 1

instance (dim : Nat) : Decidable (validDim dim) := by
  unfold validDim
  infer_instance

/-- Modelled from the spec: the class `Terrain` is not under `src/`. The mesh
of the specification's data model: vertices and normals, one for each grid cell and
in the same order, index triples for the filled triangles and index pairs for
the wireframe edges. -/
structure TerrainMesh (α : Type) where
  vertices : List (Vec3 α)
  normals : List (Vec3 α)
  faceIndices : List (Nat × Nat × Nat)
  edgeIndices : List (Nat × Nat)

/-- Modelled from the spec: the class `Terrain` is not under `src/`. The errors
of generation and mesh building. -/
inductive MeshError where
  | InvalidDimension
  | EmptyField
deriving DecidableEq, Repr

namespace MeshBuilder

/-- Modelled from the spec: the class `Terrain` is not under `src/`. The index
of the grid cell `(i, j)` in the row-major vertex order. -/
def index (dim i j : Nat) : Nat := j * dim + i

/-- Modelled from the spec: the class `Terrain` is not under `src/`. The vertex
of the grid cell `(i, j)`: `x` and `y` interpolate linearly across
`[xMin, xMax] × [yMin, yMax]`, `z` is the elevation. -/
def vertex (f : HeightField α) (xMin xMax yMin yMax : α) (i j : Nat) : Vec3 α :=
  ⟨xMin + (xMax - xMin) * (i : α) / ((f.dim - 1 : Nat) : α),
   yMin + (yMax - yMin) * (j : α) / ((f.dim - 1 : Nat) : α),
   f.height i j⟩

/-- Modelled from the spec: the class `Terrain` is not under `src/`. One vertex
for each grid cell, row-major. -/
def vertices (f : HeightField α) (xMin xMax yMin yMax : α) : List (Vec3 α) :=
  (List.range (f.dim * f.dim)).map
    (fun k => vertex f xMin xMax yMin yMax (k % f.dim) (k / f.dim))

/-- Modelled from the spec: the class `Terrain` is not under `src/`. The two
triangles of the grid quad `(i, j), (i+1, j), (i, j+1), (i+1, j+1)`, split along
the same diagonal everywhere and wound counter-clockwise seen from above. -/
def quadFaces (dim i j : Nat) : List (Nat × Nat × Nat) :=
  [(index dim i j, index dim (i + 1) j, index dim i (j + 1)),
   (index dim (i + 1) j, index dim (i + 1) (j + 1), index dim i (j + 1))]

/-- Modelled from the spec: the class `Terrain` is not under `src/`. "Two
triangles per grid quad", over the `(dim - 1) × (dim - 1)` quads. -/
def faceIndices (dim : Nat) : List (Nat × Nat × Nat) :=
  (List.range ((dim - 1) * (dim - 1))).foldr
    (fun k acc => quadFaces dim (k % (dim - 1)) (k / (dim - 1)) ++ acc) []

/-- Modelled from the spec: the class `Terrain` is not under `src/`. The face
normal of a triangle, "via cross product of two edge vectors". -/
def faceNormal (vs : List (Vec3 α)) (t : Nat × Nat × Nat) : Vec3 α :=
  let a := vs.getD t.1 vec3.create
  let b := vs.getD t.2.1 vec3.create
  let c := vs.getD t.2.2 vec3.create
  vec3.cross ⟨b.x - a.x, b.y - a.y, b.z - a.z⟩ ⟨c.x - a.x, c.y - a.y, c.z - a.z⟩

/-- Modelled from the spec: the class `Terrain` is not under `src/`. The face
normal of a triangle is summed into the accumulators of its three vertices. -/
def accumulate (vs : List (Vec3 α)) (acc : List (Vec3 α)) (t : Nat × Nat × Nat) :
    List (Vec3 α) :=
  let n := faceNormal vs t
  let acc := acc.set t.1 (vec3.add (acc.getD t.1 vec3.create) n)
  let acc := acc.set t.2.1 (vec3.add (acc.getD t.2.1 vec3.create) n)
  acc.set t.2.2 (vec3.add (acc.getD t.2.2 vec3.create) n)

/-- Modelled from the spec: the class `Terrain` is not under `src/`. An
accumulated normal is normalised, "with a zero-check before normalizing". -/
def normalizeOrZero (m : MathObj α) (a : Vec3 α) : Vec3 α :=
  let len := vec3.squaredLength a
  if len > 0 then vec3.scale a (1 / m.sqrt len) else a

/-- Modelled from the spec: the class `Terrain` is not under `src/`. The
per-vertex normals: the normalised sums of the adjacent face normals. -/
def normals (m : MathObj α) (vs : List (Vec3 α)) (faces : List (Nat × Nat × Nat)) :
    List (Vec3 α) :=
  (faces.foldl (accumulate vs) (List.replicate vs.length vec3.create)).map (normalizeOrZero m)

/-- Modelled from the spec: the class `Terrain` is not under `src/`. An edge as
an unordered index pair, smaller index first. -/
def edge (a b : Nat) : Nat × Nat := (min a b, max a b)

/-- Modelled from the spec: the class `Terrain` is not under `src/`. "One index
pair per triangle edge, deduplicated". -/
def edgeIndices (faces : List (Nat × Nat × Nat)) : List (Nat × Nat) :=
  (faces.foldr
    (fun t acc => edge t.1 t.2.1 :: edge t.2.1 t.2.2 :: edge t.2.2 t.1 :: acc) []).dedup

/-- Modelled from the spec: the class `Terrain` is not under `src/`. The Mesh
Builder, `build(field, xMin, xMax, yMin, yMax)`: it fails with `EmptyField` on a
field of fewer than 2 × 2 cells. -/
def build (m : MathObj α) (f : HeightField α) (xMin xMax yMin yMax : α) :
    Except MeshError (TerrainMesh α) :=
  if f.dim < 2 then
    Except.error MeshError.EmptyField
  else
    let vs := vertices f xMin xMax yMin yMax
    let faces := faceIndices f.dim
    Except.ok
      { vertices := vs
        normals := normals m vs faces
        faceIndices := faces
        edgeIndices := edgeIndices faces }

end MeshBuilder

/-- A flat height field of dimension `dim`. -/
def flatField (dim : Nat) : HeightField α := ⟨dim, fun _ _ => 0⟩

/-- Modelled from the spec: gl-matrix is not under `src/`. The
`vec3.transformQuat(out, a, q)` of the later releases of the library:
`a + 2 w (u × a) + 2 u × (u × a)` with `u` the vector part of `q`. -/
def vec3.transformQuatLater (a : Vec3 α) (q : Quat α) : Vec3 α :=
  let qx := q.x
  let qy := q.y
  let qz := q.z
  let qw := q.w
  let x := a.x
  let y := a.y
  let z := a.z
  let uvx := qy * z - qz * y
  let uvy := qz * x - qx * z
  let uvz := qx * y - qy * x
  let uuvx := qy * uvz - qz * uvy
  let uuvy := qz * uvx - qx * uvz
  let uuvz := qx * uvy - qy * uvx
  let w2 := qw * 2
  ⟨x + uvx * w2 + uuvx * 2, y + uvy * w2 + uuvy * 2, z + uvz * w2 + uuvz * 2⟩

/-! ## Speed -/

/-- Every key other than `i` (73) and `k` (75) leaves the speed as it is. -/
theorem keydown_speed_other (m : MathObj α) (keyCode : Nat) (st : State α)
    (h73 : keyCode ≠ 73) (h75 : keyCode ≠ 75) : (keydown m keyCode st).speed = st.speed := by
  unfold keydown
  simp only [beq_iff_eq, h73, h75, if_false]
  split_ifs <;> rfl

/-- The key `i` adds `dSpeed`. -/
theorem keydown_speed_up (m : MathObj α) (st : State α) :
    (keydown m 73 st).speed = st.speed + 0.0005 := by
  simp [keydown]

/-- The key `k` subtracts `dSpeed` and clamps at `0`. -/
theorem keydown_speed_down (m : MathObj α) (st : State α) :
    (keydown m 75 st).speed = if st.speed - 0.0005 < 0 then 0 else st.speed - 0.0005 := by
  simp [keydown]

/-- A speed that is `k` times `dSpeed` becomes `k - 1` times `dSpeed` (and stays
`0` when `k = 0`) when the key `k` goes down. -/
theorem keydown_speed_down_mul (m : MathObj α) (st : State α) (k : ℕ)
    (h : st.speed = (k : α) * 0.0005) :
    (keydown m 75 st).speed = ((k - 1 : ℕ) : α) * 0.0005 := by
  rw [keydown_speed_down, h]
  have hd : (0 : α) < 0.0005 := by norm_num
  cases k with
  | zero => simp [hd]
  | succ j =>
    have hj : (0 : α) ≤ (j : α) * 0.0005 := mul_nonneg (Nat.cast_nonneg j) hd.le
    have e : ((j + 1 : ℕ) : α) * 0.0005 - 0.0005 = (j : α) * 0.0005 := by push_cast; ring
    rw [e, if_neg (not_lt.mpr hj)]
    simp

/-- The function `updateView` leaves speed and rotation as they are. -/
theorem updateView_speed (st : State α) : (updateView st).speed = st.speed := rfl

theorem updateView_rotation (st : State α) : (updateView st).rotation = st.rotation := rfl

theorem run_nil (m : MathObj α) (st : State α) : run m [] st = st := rfl

theorem run_cons (m : MathObj α) (e : Event) (es : List Event) (st : State α) :
    run m (e :: es) st = run m es (step m e st) := rfl

theorem run_append (m : MathObj α) (es fs : List Event) (st : State α) :
    run m (es ++ fs) st = run m fs (run m es st) := by
  simp [run, List.foldl_append]

/-- An invariant that holds at `st` and is kept by every event holds after
every run from `st`. -/
theorem run_induction (m : MathObj α) (P : State α → Prop)
    (hstep : ∀ e st, P st → P (step m e st)) :
    ∀ (es : List Event) (st : State α), P st → P (run m es st) := by
  intro es
  induction es with
  | nil => intro st h; simpa [run_nil] using h
  | cons e es ih => intro st h; rw [run_cons]; exact ih _ (hstep e st h)

/-- Every event keeps the speed a natural multiple of `dSpeed`. -/
theorem step_speed_mul (m : MathObj α) (e : Event) (st : State α)
    (h : ∃ k : ℕ, st.speed = (k : α) * 0.0005) :
    ∃ k : ℕ, (step m e st).speed = (k : α) * 0.0005 := by
  obtain ⟨k, hk⟩ := h
  cases e with
  | tick => exact ⟨k, by simpa [step, updateView_speed] using hk⟩
  | keydown keyCode =>
    by_cases h73 : keyCode = 73
    · subst h73
      exact ⟨k + 1, by simp only [step]; rw [keydown_speed_up, hk]; push_cast; ring⟩
    · by_cases h75 : keyCode = 75
      · subst h75
        exact ⟨k - 1, by simp only [step]; exact keydown_speed_down_mul m st k hk⟩
      · exact ⟨k, by simp only [step]; rw [keydown_speed_other m keyCode st h73 h75, hk]⟩

/-- In every reachable state the speed is a natural multiple of `dSpeed`. -/
theorem run_speed_mul (m : MathObj α) (es : List Event) :
    ∃ k : ℕ, (run m es (initialState m)).speed = (k : α) * 0.0005 :=
  run_induction m (fun st => ∃ k : ℕ, st.speed = (k : α) * 0.0005)
    (fun e st h => step_speed_mul m e st h) es (initialState m)
    ⟨1, by simp [initialState]⟩

/-- After `n` presses of the key `k` a speed of `k` times `dSpeed` has become
`k - n` times `dSpeed`, and `0` from `n = k` on. -/
theorem run_speed_down (m : MathObj α) (n : ℕ) :
    ∀ (st : State α) (k : ℕ), st.speed = (k : α) * 0.0005 →
      (run m (List.replicate n (Event.keydown 75)) st).speed = ((k - n : ℕ) : α) * 0.0005 := by
  induction n with
  | zero => intro st k h; simpa [run_nil] using h
  | succ n ih =>
    intro st k h
    rw [List.replicate_succ, run_cons]
    have h1 := keydown_speed_down_mul m st k h
    have h2 := ih (step m (Event.keydown 75) st) (k - 1) (by simpa [step] using h1)
    rw [h2]
    congr 2
    omega

/-- Claim C1. From the initial state (speed `0.0005`), after every finite
sequence of key presses (any key codes) and `updateView` ticks the speed is
at least `0`; and from every such state, pressing the speed-down key `75` often
enough brings the speed to exactly `0`, where every further press keeps it. -/
theorem speed_never_negative (m : MathObj α) (es : List Event) :
    0 ≤ (run m es (initialState m)).speed ∧
    ∃ N : ℕ, ∀ n : ℕ, N ≤ n →
      (run m (es ++ List.replicate n (Event.keydown 75)) (initialState m)).speed = 0 := by
  obtain ⟨k, hk⟩ := run_speed_mul m es
  refine ⟨?_, k, ?_⟩
  · rw [hk]
    exact mul_nonneg (Nat.cast_nonneg k) (by norm_num)
  · intro n hn
    rw [run_append, run_speed_down m n _ k hk, Nat.sub_eq_zero_of_le hn]
    simp

/-- The squared length of a Hamilton product is the product of the squared
lengths. -/
theorem multiply_squaredLength (a b : Quat α) :
    quat.squaredLength (quat.multiply a b) = quat.squaredLength a * quat.squaredLength b := by
  simp only [quat.squaredLength, quat.multiply]
  ring

/-- The function `vec3.transformQuat` scales squared lengths by the square of the
squared length of the quaternion. -/
theorem transformQuat_squaredLength (a : Vec3 α) (q : Quat α) :
    vec3.squaredLength (vec3.transformQuat a q)
      = quat.squaredLength q * quat.squaredLength q * vec3.squaredLength a := by
  simp only [vec3.squaredLength, vec3.transformQuat, quat.squaredLength]
  ring

/-- The function `vec3.transformQuat` scales dot products in the same way. -/
theorem transformQuat_dot (a b : Vec3 α) (q : Quat α) :
    vec3.dot (vec3.transformQuat a q) (vec3.transformQuat b q)
      = quat.squaredLength q * quat.squaredLength q * vec3.dot a b := by
  simp only [vec3.dot, vec3.transformQuat, quat.squaredLength]
  ring

/-- Transforming by a product is transforming by the right factor first. -/
theorem transformQuat_multiply (a : Vec3 α) (p q : Quat α) :
    vec3.transformQuat a (quat.multiply p q)
      = vec3.transformQuat (vec3.transformQuat a q) p := by
  ext <;> simp only [vec3.transformQuat, quat.multiply] <;> ring

/-- For a unit quaternion `q`, the quaternion whose vector part is the axis `a`
transformed by `q` (times `s`) and whose scalar part is `c`, multiplied onto `q`
from the left, is `q` multiplied from the right by `(a * s, c)`. -/
theorem conj_multiply (a : Vec3 α) (q : Quat α) (s c : α)
    (hq : quat.squaredLength q = 1) :
    quat.multiply
        (quat.fromValues ((vec3.transformQuat a q).x * s) ((vec3.transformQuat a q).y * s)
          ((vec3.transformQuat a q).z * s) c) q
      = quat.multiply q (quat.fromValues (a.x * s) (a.y * s) (a.z * s) c) := by
  simp only [quat.squaredLength] at hq
  ext <;> simp only [vec3.transformQuat, quat.multiply, quat.fromValues]
  · linear_combination (q.w * (a.x * s) + q.y * (a.z * s) - q.z * (a.y * s)) * hq
  · linear_combination (q.w * (a.y * s) + q.z * (a.x * s) - q.x * (a.z * s)) * hq
  · linear_combination (q.w * (a.z * s) + q.x * (a.y * s) - q.y * (a.x * s)) * hq
  · linear_combination (-(q.x * a.x + q.y * a.y + q.z * a.z) * s) * hq

/-- A unit quaternion is its own normalisation (over the reals). -/
theorem normalize_unit (a : Quat ℝ) (h : quat.squaredLength a = 1) :
    quat.normalize realMath a = a := by
  simp only [quat.squaredLength] at h
  simp [quat.normalize, realMath, h]

/-- The normalisation of a non-zero quaternion has squared length `1` (over the
reals). -/
theorem normalize_squaredLength (a : Quat ℝ) (h : 0 < quat.squaredLength a) :
    quat.squaredLength (quat.normalize realMath a) = 1 := by
  simp only [quat.squaredLength] at h
  have hs : Real.sqrt (a.x * a.x + a.y * a.y + a.z * a.z + a.w * a.w) ^ 2
      = a.x * a.x + a.y * a.y + a.z * a.z + a.w * a.w := Real.sq_sqrt h.le
  have hne : Real.sqrt (a.x * a.x + a.y * a.y + a.z * a.z + a.w * a.w) ≠ 0 :=
    (Real.sqrt_pos.mpr h).ne.symm
  simp only [quat.normalize, realMath, gt_iff_lt, h, if_true, quat.squaredLength]
  field_simp

/-- The norm of a real quaternion is `1` exactly when its squared length is. -/
theorem length_eq_one_iff (a : Quat ℝ) :
    quat.length realMath a = 1 ↔ quat.squaredLength a = 1 := by
  simp [quat.length, realMath]

/-- The length of a real vector is `1` exactly when its squared length is. -/
theorem vec3_length_eq_one_iff (a : Vec3 ℝ) :
    vec3.length realMath a = 1 ↔ vec3.squaredLength a = 1 := by
  simp [vec3.length, realMath]

/-- For a unit rotation and a unit axis, `getTransformQuat` is the quaternion
with the transformed axis times the sine of the half angle as vector part and the
cosine of the half angle as scalar part: its normalisation changes nothing. -/
theorem getTransformQuat_unit (a : Vec3 ℝ) (q : Quat ℝ) (d : ℝ)
    (hq : quat.squaredLength q = 1) (ha : vec3.squaredLength a = 1) :
    getTransformQuat realMath a q d
      = quat.fromValues
          ((vec3.transformQuat a q).x * Real.sin (d * (Real.pi / 180) / 2))
          ((vec3.transformQuat a q).y * Real.sin (d * (Real.pi / 180) / 2))
          ((vec3.transformQuat a q).z * Real.sin (d * (Real.pi / 180) / 2))
          (Real.cos (d * (Real.pi / 180) / 2)) := by
  have hv := transformQuat_squaredLength a q
  rw [hq, ha] at hv
  simp only [vec3.squaredLength] at hv
  have hcs := Real.sin_sq_add_cos_sq (d * (Real.pi / 180) / 2)
  have e : getTransformQuat realMath a q d
      = quat.normalize realMath (quat.fromValues
          ((vec3.transformQuat a q).x * Real.sin (d * (Real.pi / 180) / 2))
          ((vec3.transformQuat a q).y * Real.sin (d * (Real.pi / 180) / 2))
          ((vec3.transformQuat a q).z * Real.sin (d * (Real.pi / 180) / 2))
          (Real.cos (d * (Real.pi / 180) / 2))) := rfl
  rw [e]
  apply normalize_unit
  simp only [quat.squaredLength, quat.fromValues]
  linear_combination (Real.sin (d * (Real.pi / 180) / 2)) ^ 2 * hv + hcs

/-- The quaternion `axisAngle a d` of a unit axis has squared length `1`. -/
theorem axisAngle_squaredLength (a : Vec3 ℝ) (d : ℝ) (ha : vec3.squaredLength a = 1) :
    quat.squaredLength (axisAngle realMath a d) = 1 := by
  simp only [vec3.squaredLength] at ha
  have hcs := Real.sin_sq_add_cos_sq (d * Real.pi / 360)
  simp only [quat.squaredLength, axisAngle, realMath]
  linear_combination (Real.sin (d * Real.pi / 360)) ^ 2 * ha + hcs

/-- A rotation event on a unit orientation `q` about a unit local axis `a`
multiplies `q` from the right by `axisAngle a d`. -/
theorem getTransformQuat_multiply (a : Vec3 ℝ) (q : Quat ℝ) (d : ℝ)
    (hq : quat.squaredLength q = 1) (ha : vec3.squaredLength a = 1) :
    quat.multiply (getTransformQuat realMath a q d) q
      = quat.multiply q (axisAngle realMath a d) := by
  rw [getTransformQuat_unit a q d hq ha, conj_multiply a q _ _ hq]
  have e : d * (Real.pi / 180) / 2 = d * Real.pi / 360 := by ring
  rw [e]
  rfl

/-- A rotation event keeps a unit orientation a unit quaternion. -/
theorem getTransformQuat_multiply_squaredLength (a : Vec3 ℝ) (q : Quat ℝ) (d : ℝ)
    (hq : quat.squaredLength q = 1) (ha : vec3.squaredLength a = 1) :
    quat.squaredLength (quat.multiply (getTransformQuat realMath a q d) q) = 1 := by
  rw [getTransformQuat_multiply a q d hq ha, multiply_squaredLength, hq,
    axisAngle_squaredLength a d ha, one_mul]

/-- Multiplying by `axisAngle a d` and then by `axisAngle a (-d)` from the right
gives back the quaternion, for a unit axis `a`. -/
theorem multiply_axisAngle_neg (a : Vec3 ℝ) (q : Quat ℝ) (d : ℝ)
    (ha : vec3.squaredLength a = 1) :
    quat.multiply (quat.multiply q (axisAngle realMath a d)) (axisAngle realMath a (-d)) = q := by
  have h := axisAngle_squaredLength a d ha
  have e : -d * Real.pi / 360 = -(d * Real.pi / 360) := by ring
  simp only [quat.squaredLength, axisAngle, realMath] at h
  ext <;> simp only [quat.multiply, axisAngle, realMath, e, Real.sin_neg, Real.cos_neg]
  · linear_combination q.x * h
  · linear_combination q.y * h
  · linear_combination q.z * h
  · linear_combination q.w * h

/-- A rotation event followed by the event with the same axis and the negated
angle gives back a unit orientation. -/
theorem getTransformQuat_round_trip (a : Vec3 ℝ) (q : Quat ℝ) (d : ℝ)
    (hq : quat.squaredLength q = 1) (ha : vec3.squaredLength a = 1) :
    quat.multiply
        (getTransformQuat realMath a (quat.multiply (getTransformQuat realMath a q d) q) (-d))
        (quat.multiply (getTransformQuat realMath a q d) q) = q := by
  have h1 := getTransformQuat_multiply_squaredLength a q d hq ha
  rw [getTransformQuat_multiply a _ (-d) h1 ha, getTransformQuat_multiply a q d hq ha]
  exact multiply_axisAngle_neg a q d ha

/-- The two axes used by the key handler are unit vectors. -/
theorem axis_y_unit : vec3.squaredLength (vec3.fromValues (0.0 : α) 1.0 0.0) = 1 := by
  simp only [vec3.squaredLength, vec3.fromValues]
  norm_num

theorem axis_x_unit : vec3.squaredLength (vec3.fromValues (1.0 : α) 0.0 0.0) = 1 := by
  simp only [vec3.squaredLength, vec3.fromValues]
  norm_num

/-- A property of the rotation that holds before a key press and for each of the
four products the handler can assign holds after the key press. -/
theorem keydown_rotation_cases (m : MathObj α) (keyCode : Nat) (st : State α)
    (P : Quat α → Prop) (h0 : P st.rotation)
    (hy : ∀ d : α, P (quat.multiply
      (getTransformQuat m (vec3.fromValues 0.0 1.0 0.0) st.rotation d) st.rotation))
    (hx : ∀ d : α, P (quat.multiply
      (getTransformQuat m (vec3.fromValues 1.0 0.0 0.0) st.rotation d) st.rotation)) :
    P (keydown m keyCode st).rotation := by
  unfold keydown
  simp only
  split_ifs
  · exact h0
  · exact h0
  · exact h0
  · exact hy _
  · exact hy _
  · exact hx _
  · exact hx _
  · exact h0

/-- Every key press keeps a unit orientation a unit quaternion. -/
theorem keydown_squaredLength (keyCode : Nat) (st : State ℝ)
    (h : quat.squaredLength st.rotation = 1) :
    quat.squaredLength (keydown realMath keyCode st).rotation = 1 :=
  keydown_rotation_cases realMath keyCode st (fun r => quat.squaredLength r = 1) h
    (fun d => getTransformQuat_multiply_squaredLength _ _ d h axis_y_unit)
    (fun d => getTransformQuat_multiply_squaredLength _ _ d h axis_x_unit)

/-- The initial orientation is a unit quaternion. -/
theorem initialState_squaredLength :
    quat.squaredLength (initialState realMath).rotation = 1 := by
  apply normalize_squaredLength
  simp only [quat.squaredLength, quat.fromValues]
  norm_num

/-- The orientation is a unit quaternion in every reachable state. -/
theorem run_squaredLength (es : List Event) :
    quat.squaredLength (run realMath es (initialState realMath)).rotation = 1 :=
  run_induction realMath (fun st => quat.squaredLength st.rotation = 1)
    (fun e st h => by
      cases e with
      | tick => exact h
      | keydown keyCode => exact keydown_squaredLength keyCode st h)
    es (initialState realMath) initialState_squaredLength

/-- What the four rotation keys assign. -/
theorem keydown_83 (m : MathObj α) (st : State α) :
    keydown m 83 st = { st with rotation :=
      (quat.multiply (getTransformQuat m (vec3.fromValues 0.0 1.0 0.0) st.rotation (-0.5))
        st.rotation) } := rfl

theorem keydown_87 (m : MathObj α) (st : State α) :
    keydown m 87 st = { st with rotation :=
      (quat.multiply (getTransformQuat m (vec3.fromValues 0.0 1.0 0.0) st.rotation 0.5)
        st.rotation) } := rfl

theorem keydown_65 (m : MathObj α) (st : State α) :
    keydown m 65 st = { st with rotation :=
      (quat.multiply (getTransformQuat m (vec3.fromValues 1.0 0.0 0.0) st.rotation (-1.0))
        st.rotation) } := rfl

theorem keydown_68 (m : MathObj α) (st : State α) :
    keydown m 68 st = { st with rotation :=
      (quat.multiply (getTransformQuat m (vec3.fromValues 1.0 0.0 0.0) st.rotation 1.0)
        st.rotation) } := rfl

/-! ## Rotation events -/

/-- Claim C2. For every unit orientation `q`, every unit axis `a` and every
angle `d` in degrees, a rotation event followed by the event with the same axis
and the angle `-d` restores `q`; and in every state whose orientation is `q`,
key 87 followed by key 83, and key 68 followed by key 65, leave the state (so its
rotation) as it was. -/
theorem rotation_round_trip (a : Vec3 ℝ) (q : Quat ℝ) (d : ℝ)
    (hq : quat.length realMath q = 1) (ha : vec3.length realMath a = 1) :
    quat.multiply
        (getTransformQuat realMath a (quat.multiply (getTransformQuat realMath a q d) q) (-d))
        (quat.multiply (getTransformQuat realMath a q d) q) = q ∧
    ∀ st : State ℝ, st.rotation = q →
      keydown realMath 83 (keydown realMath 87 st) = st ∧
      keydown realMath 65 (keydown realMath 68 st) = st := by
  rw [length_eq_one_iff] at hq
  rw [vec3_length_eq_one_iff] at ha
  refine ⟨getTransformQuat_round_trip a q d hq ha, ?_⟩
  intro st hst
  subst hst
  constructor
  · rw [keydown_87, keydown_83]
    simp only
    rw [getTransformQuat_round_trip _ _ _ hq axis_y_unit]
  · rw [keydown_68, keydown_65]
    simp only
    rw [getTransformQuat_round_trip _ _ _ hq axis_x_unit]

/-- Claim C2 at the orientation `(0, 0, 1, 0)`, the axis `(0, 1, 0)` and 90
degrees. -/
theorem rotation_round_trip_witness :
    quat.multiply
        (getTransformQuat realMath ⟨0, 1, 0⟩
          (quat.multiply (getTransformQuat realMath ⟨0, 1, 0⟩ ⟨0, 0, 1, 0⟩ 90) ⟨0, 0, 1, 0⟩) (-90))
        (quat.multiply (getTransformQuat realMath ⟨0, 1, 0⟩ ⟨0, 0, 1, 0⟩ 90) ⟨0, 0, 1, 0⟩)
      = (⟨0, 0, 1, 0⟩ : Quat ℝ) :=
  (rotation_round_trip ⟨0, 1, 0⟩ ⟨0, 0, 1, 0⟩ 90
    (by simp [quat.length, quat.squaredLength, realMath])
    (by simp [vec3.length, vec3.squaredLength, realMath])).1

/-- Claim C3. For every unit orientation `q`, every unit axis `a` given in the
local frame and every angle `d` in degrees, the orientation after a rotation
event, `getTransformQuat(a, q, d) * q`, is `q * r` with
`r = (a * sin (d * pi / 360), cos (d * pi / 360))` the axis-angle quaternion about
the untransformed axis. -/
theorem rotation_frame_relative (a : Vec3 ℝ) (q : Quat ℝ) (d : ℝ)
    (hq : quat.length realMath q = 1) (ha : vec3.length realMath a = 1) :
    quat.multiply (getTransformQuat realMath a q d) q
      = quat.multiply q (axisAngle realMath a d) := by
  rw [length_eq_one_iff] at hq
  rw [vec3_length_eq_one_iff] at ha
  exact getTransformQuat_multiply a q d hq ha

/-- Claim C3 at the orientation `(0, 0, 1, 0)`, the axis `(1, 0, 0)` and 90
degrees. -/
theorem rotation_frame_relative_witness :
    quat.multiply (getTransformQuat realMath ⟨1, 0, 0⟩ ⟨0, 0, 1, 0⟩ 90) ⟨0, 0, 1, 0⟩
      = quat.multiply (⟨0, 0, 1, 0⟩ : Quat ℝ) (axisAngle realMath ⟨1, 0, 0⟩ 90) :=
  rotation_frame_relative ⟨1, 0, 0⟩ ⟨0, 0, 1, 0⟩ 90
    (by simp [quat.length, quat.squaredLength, realMath])
    (by simp [vec3.length, vec3.squaredLength, realMath])

/-- Claim C4. The initial rotation, the normalisation of `(0, 0.2, 0, 1)`, has
norm 1; every key press (the rotation keys 83, 87, 65, 68 and every other key)
maps a rotation of norm 1 to a rotation of norm 1; and the rotation has norm 1
in every reachable state. -/
theorem orientation_unit :
    quat.length realMath (initialState realMath).rotation = 1 ∧
    (∀ (keyCode : Nat) (st : State ℝ), quat.length realMath st.rotation = 1 →
      quat.length realMath (keydown realMath keyCode st).rotation = 1) ∧
    (∀ es : List Event,
      quat.length realMath (run realMath es (initialState realMath)).rotation = 1) := by
  refine ⟨?_, ?_, ?_⟩
  · rw [length_eq_one_iff]
    exact initialState_squaredLength
  · intro keyCode st h
    rw [length_eq_one_iff] at h ⊢
    exact keydown_squaredLength keyCode st h
  · intro es
    rw [length_eq_one_iff]
    exact run_squaredLength es

/-! ## One navigation step -/

/-- Claim C5. In every state with the default vectors `(1, 0, 0)` and
`(0, 0, 1)`, position `p`, orientation `q` and speed `s`, `updateView` sets
`viewDir` to `(1, 0, 0)` transformed by `q`, `upDir` to `(0, 0, 1)` transformed
by `q` and the position to `p + s * viewDir` (no elapsed time enters), and
leaves `q`, `s` and the default vectors as they were; with `s = 0` the position
is unchanged. -/
theorem updateView_spec (st : State α)
    (hv : st.defaultViewDir = vec3.fromValues 1.0 0.0 0.0)
    (hu : st.defaultUpDir = vec3.fromValues 0.0 0.0 1.0) :
    (updateView st).viewDir = vec3.transformQuat (vec3.fromValues 1.0 0.0 0.0) st.rotation ∧
    (updateView st).upDir = vec3.transformQuat (vec3.fromValues 0.0 0.0 1.0) st.rotation ∧
    (updateView st).position
      = vec3.add st.position (vec3.scale (updateView st).viewDir st.speed) ∧
    (updateView st).rotation = st.rotation ∧
    (updateView st).speed = st.speed ∧
    (updateView st).defaultViewDir = vec3.fromValues 1.0 0.0 0.0 ∧
    (updateView st).defaultUpDir = vec3.fromValues 0.0 0.0 1.0 ∧
    (st.speed = 0 → (updateView st).position = st.position) := by
  refine ⟨?_, ?_, rfl, rfl, rfl, hv, hu, ?_⟩
  · simp only [updateView, hv]
    rfl
  · simp only [updateView, hu]
    rfl
  · intro h0
    simp only [updateView, vec3.add, vec3.scale, h0, mul_zero, add_zero]

/-- Claim C5 at the initial state over the rationals: the first `updateView` moves
the position by `0.0005` times the new view direction. -/
theorem updateView_spec_witness :
    (updateView (initialState ratMath)).position
      = vec3.add (initialState ratMath).position
          (vec3.scale (updateView (initialState ratMath)).viewDir 0.0005) :=
  (updateView_spec (initialState ratMath) rfl rfl).2.2.1

/-! ## The matrix stack -/

/-- Claim C6. Whatever the content of `mvMatrixStack` at entry (the empty stack
included) and whatever the checkboxes, `draw` does not throw: it returns, with
`mvMatrixStack` as it was at entry and `mvMatrix` the look-at matrix that
`mvPushMatrix` saved before the translation. -/
theorem draw_stack_balanced {M : Type} (L : Mat4Lib α M) (cb : Checkboxes) (st : State α)
    (r : RenderState α M) :
    ∃ r1 : RenderState α M, draw L cb st r = Except.ok r1 ∧
      r1.mvMatrixStack = r.mvMatrixStack ∧
      r1.mvMatrix = L.lookAt st.position (vec3.add st.position st.viewDir) st.upDir := by
  obtain ⟨polygon, wirepoly, wireframe, fog⟩ := cb
  cases polygon <;> cases wirepoly <;> cases wireframe <;>
    simp [draw, mvPopMatrix, mvPushMatrix, terrainDraw]

theorem fromValues_x : vec3.fromValues (1.0 : α) 0.0 0.0 = ⟨1, 0, 0⟩ := by
  simp only [vec3.fromValues]; norm_num

theorem fromValues_y : vec3.fromValues (0.0 : α) 1.0 0.0 = ⟨0, 1, 0⟩ := by
  simp only [vec3.fromValues]; norm_num

theorem fromValues_z : vec3.fromValues (0.0 : α) 0.0 1.0 = ⟨0, 0, 1⟩ := by
  simp only [vec3.fromValues]; norm_num

/-- The axis-angle quaternion about the local axis `(0, 1, 0)` turns `(0, 0, 1)`
towards `(1, 0, 0)` by the full angle. -/
theorem transformQuat_z_axisAngle_y (d : ℝ) :
    vec3.transformQuat ⟨0, 0, 1⟩ (axisAngle realMath ⟨0, 1, 0⟩ d)
      = ⟨Real.sin (d * Real.pi / 180), 0, Real.cos (d * Real.pi / 180)⟩ := by
  have e : d * Real.pi / 180 = 2 * (d * Real.pi / 360) := by ring
  have hcs := Real.sin_sq_add_cos_sq (d * Real.pi / 360)
  rw [e, Real.sin_two_mul, Real.cos_two_mul]
  ext <;> simp only [vec3.transformQuat, axisAngle, realMath]
  · ring
  · ring
  · linear_combination (-1 : ℝ) * hcs

theorem transformQuat_x_axisAngle_y (d : ℝ) :
    vec3.transformQuat ⟨1, 0, 0⟩ (axisAngle realMath ⟨0, 1, 0⟩ d)
      = ⟨Real.cos (d * Real.pi / 180), 0, -Real.sin (d * Real.pi / 180)⟩ := by
  have e : d * Real.pi / 180 = 2 * (d * Real.pi / 360) := by ring
  have hcs := Real.sin_sq_add_cos_sq (d * Real.pi / 360)
  rw [e, Real.sin_two_mul, Real.cos_two_mul]
  ext <;> simp only [vec3.transformQuat, axisAngle, realMath]
  · linear_combination (-1 : ℝ) * hcs
  · ring
  · ring

theorem transformQuat_y_axisAngle_y (d : ℝ) :
    vec3.transformQuat ⟨0, 1, 0⟩ (axisAngle realMath ⟨0, 1, 0⟩ d) = ⟨0, 1, 0⟩ := by
  have hcs := Real.sin_sq_add_cos_sq (d * Real.pi / 360)
  ext <;> simp only [vec3.transformQuat, axisAngle, realMath]
  · ring
  · linear_combination hcs
  · ring

theorem transformQuat_x_axisAngle_x (d : ℝ) :
    vec3.transformQuat ⟨1, 0, 0⟩ (axisAngle realMath ⟨1, 0, 0⟩ d) = ⟨1, 0, 0⟩ := by
  have hcs := Real.sin_sq_add_cos_sq (d * Real.pi / 360)
  ext <;> simp only [vec3.transformQuat, axisAngle, realMath]
  · linear_combination hcs
  · ring
  · ring

/-- The function `vec3.transformQuat` is linear in the vector, on the combinations
of `(1, 0, 0)` and `(0, 0, 1)`. -/
theorem transformQuat_comb (q : Quat α) (u w : α) :
    vec3.transformQuat ⟨u, 0, w⟩ q
      = vec3.add (vec3.scale (vec3.transformQuat ⟨0, 0, 1⟩ q) w)
          (vec3.scale (vec3.transformQuat ⟨1, 0, 0⟩ q) u) := by
  ext <;> simp only [vec3.transformQuat, vec3.add, vec3.scale] <;> ring

/-- A rotation event about the local axis `(0, 1, 0)` turns the up vector towards
the view direction by the angle of the event. -/
theorem rotate_y_up (q : Quat ℝ) (d : ℝ) (hq : quat.squaredLength q = 1) :
    vec3.transformQuat (vec3.fromValues 0.0 0.0 1.0)
        (quat.multiply (getTransformQuat realMath (vec3.fromValues 0.0 1.0 0.0) q d) q)
      = vec3.add
          (vec3.scale (vec3.transformQuat (vec3.fromValues 0.0 0.0 1.0) q)
            (Real.cos (d * Real.pi / 180)))
          (vec3.scale (vec3.transformQuat (vec3.fromValues 1.0 0.0 0.0) q)
            (Real.sin (d * Real.pi / 180))) := by
  rw [getTransformQuat_multiply _ q d hq axis_y_unit, transformQuat_multiply,
    fromValues_x, fromValues_y, fromValues_z, transformQuat_z_axisAngle_y,
    transformQuat_comb]

/-- A rotation event about the local axis `(0, 1, 0)` turns the view direction
away from the up vector by the angle of the event. -/
theorem rotate_y_view (q : Quat ℝ) (d : ℝ) (hq : quat.squaredLength q = 1) :
    vec3.transformQuat (vec3.fromValues 1.0 0.0 0.0)
        (quat.multiply (getTransformQuat realMath (vec3.fromValues 0.0 1.0 0.0) q d) q)
      = vec3.add
          (vec3.scale (vec3.transformQuat (vec3.fromValues 0.0 0.0 1.0) q)
            (-Real.sin (d * Real.pi / 180)))
          (vec3.scale (vec3.transformQuat (vec3.fromValues 1.0 0.0 0.0) q)
            (Real.cos (d * Real.pi / 180))) := by
  rw [getTransformQuat_multiply _ q d hq axis_y_unit, transformQuat_multiply,
    fromValues_x, fromValues_y, fromValues_z, transformQuat_x_axisAngle_y,
    transformQuat_comb]

/-- A rotation event about the local axis `(0, 1, 0)` keeps that axis. -/
theorem rotate_y_axis (q : Quat ℝ) (d : ℝ) (hq : quat.squaredLength q = 1) :
    vec3.transformQuat (vec3.fromValues 0.0 1.0 0.0)
        (quat.multiply (getTransformQuat realMath (vec3.fromValues 0.0 1.0 0.0) q d) q)
      = vec3.transformQuat (vec3.fromValues 0.0 1.0 0.0) q := by
  rw [getTransformQuat_multiply _ q d hq axis_y_unit, transformQuat_multiply,
    fromValues_y, transformQuat_y_axisAngle_y]

/-- A rotation event about the local axis `(1, 0, 0)` keeps that axis. -/
theorem rotate_x_axis (q : Quat ℝ) (d : ℝ) (hq : quat.squaredLength q = 1) :
    vec3.transformQuat (vec3.fromValues 1.0 0.0 0.0)
        (quat.multiply (getTransformQuat realMath (vec3.fromValues 1.0 0.0 0.0) q d) q)
      = vec3.transformQuat (vec3.fromValues 1.0 0.0 0.0) q := by
  rw [getTransformQuat_multiply _ q d hq axis_x_unit, transformQuat_multiply,
    fromValues_x, transformQuat_x_axisAngle_x]

/-- A rotation event about the local axis `(0, 1, 0)` by an angle whose sine is
not `0` changes the up vector. -/
theorem rotate_y_up_ne (q : Quat ℝ) (d : ℝ) (hq : quat.squaredLength q = 1)
    (hs : Real.sin (d * Real.pi / 180) ≠ 0) :
    vec3.transformQuat (vec3.fromValues 0.0 0.0 1.0)
        (quat.multiply (getTransformQuat realMath (vec3.fromValues 0.0 1.0 0.0) q d) q)
      ≠ vec3.transformQuat (vec3.fromValues 0.0 0.0 1.0) q := by
  intro h
  rw [rotate_y_up q d hq] at h
  have h1 := congrArg (fun v => vec3.dot v (vec3.transformQuat (vec3.fromValues 1.0 0.0 0.0) q)) h
  have hzx := transformQuat_dot (vec3.fromValues (0.0 : ℝ) 0.0 1.0) (vec3.fromValues 1.0 0.0 0.0) q
  have hxx := transformQuat_dot (vec3.fromValues (1.0 : ℝ) 0.0 0.0) (vec3.fromValues 1.0 0.0 0.0) q
  simp only [hq, fromValues_x, fromValues_z] at hzx hxx h1
  simp only [vec3.dot, vec3.add, vec3.scale, mul_zero, mul_one, add_zero, zero_add, one_mul,
    zero_mul] at h1 hzx hxx
  apply hs
  linear_combination h1 + (1 - Real.cos (d * Real.pi / 180)) * hzx
    - Real.sin (d * Real.pi / 180) * hxx

theorem updateView_viewDir (st : State α) :
    (updateView st).viewDir = vec3.transformQuat st.defaultViewDir st.rotation := rfl

theorem updateView_upDir (st : State α) :
    (updateView st).upDir = vec3.transformQuat st.defaultUpDir st.rotation := rfl

theorem updateView_position (st : State α) :
    (updateView st).position
      = vec3.add st.position
          (vec3.scale (vec3.transformQuat st.defaultViewDir st.rotation) st.speed) := rfl

/-- No key press writes the default vectors. -/
theorem keydown_defaults (m : MathObj α) (keyCode : Nat) (st : State α) :
    (keydown m keyCode st).defaultViewDir = st.defaultViewDir ∧
    (keydown m keyCode st).defaultUpDir = st.defaultUpDir := by
  unfold keydown
  simp only
  split_ifs <;> exact ⟨rfl, rfl⟩

/-- A key press other than `i` and `k` writes neither position nor speed. -/
theorem keydown_position (m : MathObj α) (keyCode : Nat) (st : State α) :
    (keydown m keyCode st).position = st.position := by
  unfold keydown
  simp only
  split_ifs <;> rfl

/-- The sine of half a degree is not `0`. -/
theorem sin_half_degree_ne : Real.sin (0.5 * Real.pi / 180) ≠ 0 := by
  have hpi := Real.pi_pos
  have h := Real.sin_pos_of_pos_of_lt_pi (x := 0.5 * Real.pi / 180)
    (by norm_num; exact hpi) (by norm_num; linarith)
  exact h.ne.symm

theorem sin_neg_half_degree_ne : Real.sin (-0.5 * Real.pi / 180) ≠ 0 := by
  have e : (-0.5 : ℝ) * Real.pi / 180 = -(0.5 * Real.pi / 180) := by ring
  rw [e, Real.sin_neg]
  exact neg_ne_zero.mpr sin_half_degree_ne

/-! ## The rotation keys -/

/-- Claim C7 fails: at the unit orientation `(0, 0, 0, 1)` the key 87 changes the
up vector that `updateView` computes from the orientation. -/
theorem yaw_keys_change_up :
    quat.length realMath (stateAt realMath ⟨0, 0, 0, 1⟩).rotation = 1 ∧
    (updateView (keydown realMath 87 (stateAt realMath ⟨0, 0, 0, 1⟩))).upDir
      ≠ (updateView (stateAt realMath ⟨0, 0, 0, 1⟩)).upDir := by
  have hq : quat.squaredLength (stateAt realMath ⟨0, 0, 0, 1⟩).rotation = 1 := by
    simp [stateAt, quat.squaredLength]
  refine ⟨(length_eq_one_iff _).mpr hq, ?_⟩
  rw [keydown_87, updateView_upDir, updateView_upDir]
  exact rotate_y_up_ne _ 0.5 hq sin_half_degree_ne

/-- Claim C7, amended. The keys 83 and 87 are pitch rotations, about the camera's
current lateral axis: for every unit orientation, the local axis `(0, 1, 0)`
transformed by the new orientation is the one transformed by the old
orientation, while the up vector and the view direction that `updateView`
computes both turn in their common plane, by `-0.5` degrees for key 83 and by
`0.5` degrees for key 87; the up vector is not the one before the event. -/
theorem pitch_keys (st : State ℝ) (hq : quat.length realMath st.rotation = 1)
    (hv : st.defaultViewDir = vec3.fromValues 1.0 0.0 0.0)
    (hu : st.defaultUpDir = vec3.fromValues 0.0 0.0 1.0) :
    (vec3.transformQuat (vec3.fromValues 0.0 1.0 0.0) (keydown realMath 83 st).rotation
        = vec3.transformQuat (vec3.fromValues 0.0 1.0 0.0) st.rotation ∧
      (updateView (keydown realMath 83 st)).upDir
        = vec3.add (vec3.scale (updateView st).upDir (Real.cos (-0.5 * Real.pi / 180)))
            (vec3.scale (updateView st).viewDir (Real.sin (-0.5 * Real.pi / 180))) ∧
      (updateView (keydown realMath 83 st)).viewDir
        = vec3.add (vec3.scale (updateView st).upDir (-Real.sin (-0.5 * Real.pi / 180)))
            (vec3.scale (updateView st).viewDir (Real.cos (-0.5 * Real.pi / 180))) ∧
      (updateView (keydown realMath 83 st)).upDir ≠ (updateView st).upDir) ∧
    (vec3.transformQuat (vec3.fromValues 0.0 1.0 0.0) (keydown realMath 87 st).rotation
        = vec3.transformQuat (vec3.fromValues 0.0 1.0 0.0) st.rotation ∧
      (updateView (keydown realMath 87 st)).upDir
        = vec3.add (vec3.scale (updateView st).upDir (Real.cos (0.5 * Real.pi / 180)))
            (vec3.scale (updateView st).viewDir (Real.sin (0.5 * Real.pi / 180))) ∧
      (updateView (keydown realMath 87 st)).viewDir
        = vec3.add (vec3.scale (updateView st).upDir (-Real.sin (0.5 * Real.pi / 180)))
            (vec3.scale (updateView st).viewDir (Real.cos (0.5 * Real.pi / 180))) ∧
      (updateView (keydown realMath 87 st)).upDir ≠ (updateView st).upDir) := by
  rw [length_eq_one_iff] at hq
  simp only [keydown_83, keydown_87, updateView_upDir, updateView_viewDir, hv, hu]
  exact ⟨⟨rotate_y_axis _ _ hq, rotate_y_up _ _ hq, rotate_y_view _ _ hq,
      rotate_y_up_ne _ _ hq sin_neg_half_degree_ne⟩,
    ⟨rotate_y_axis _ _ hq, rotate_y_up _ _ hq, rotate_y_view _ _ hq,
      rotate_y_up_ne _ _ hq sin_half_degree_ne⟩⟩

/-- Claim C7, amended, at the orientation `(0, 0, 0, 1)`: key 87 keeps the
lateral axis. -/
theorem pitch_keys_witness :
    vec3.transformQuat (vec3.fromValues 0.0 1.0 0.0)
        (keydown realMath 87 (stateAt realMath ⟨0, 0, 0, 1⟩)).rotation
      = vec3.transformQuat (vec3.fromValues 0.0 1.0 0.0) (stateAt realMath ⟨0, 0, 0, 1⟩).rotation :=
  (pitch_keys (stateAt realMath ⟨0, 0, 0, 1⟩)
    (by simp [stateAt, quat.length, quat.squaredLength, realMath]) rfl rfl).2.1

/-- Claim C8. The keys 65 and 68 are rolls about the current view direction: for
every unit orientation, the view direction that `updateView` computes after such
an event is the one it computes before, and so is the position it moves to. -/
theorem roll_keys_keep_view (st : State ℝ) (hq : quat.length realMath st.rotation = 1)
    (hv : st.defaultViewDir = vec3.fromValues 1.0 0.0 0.0) :
    (updateView (keydown realMath 65 st)).viewDir = (updateView st).viewDir ∧
    (updateView (keydown realMath 68 st)).viewDir = (updateView st).viewDir ∧
    (updateView (keydown realMath 65 st)).position = (updateView st).position ∧
    (updateView (keydown realMath 68 st)).position = (updateView st).position := by
  rw [length_eq_one_iff] at hq
  simp only [keydown_65, keydown_68, updateView_position, updateView_viewDir, hv]
  rw [rotate_x_axis _ _ hq, rotate_x_axis _ _ hq]
  exact ⟨rfl, rfl, rfl, rfl⟩

/-- Claim C8 at the orientation `(0, 0, 1, 0)`: key 68 keeps the view direction. -/
theorem roll_keys_keep_view_witness :
    (updateView (keydown realMath 68 (stateAt realMath ⟨0, 0, 1, 0⟩))).viewDir
      = (updateView (stateAt realMath ⟨0, 0, 1, 0⟩)).viewDir :=
  (roll_keys_keep_view (stateAt realMath ⟨0, 0, 1, 0⟩)
    (by simp [stateAt, quat.length, quat.squaredLength, realMath]) rfl).2.1

/-! ## The view frame -/

/-- Lagrange's identity for the cross product. -/
theorem cross_squaredLength (a b : Vec3 α) :
    vec3.squaredLength (vec3.cross a b)
      = vec3.squaredLength a * vec3.squaredLength b - vec3.dot a b * vec3.dot a b := by
  simp only [vec3.squaredLength, vec3.cross, vec3.dot]
  ring

/-- After `updateView` in a state with a unit orientation and the default
vectors, the view frame is orthonormal. -/
theorem updateView_orthonormal (st : State ℝ) (hq : quat.squaredLength st.rotation = 1)
    (hv : st.defaultViewDir = vec3.fromValues 1.0 0.0 0.0)
    (hu : st.defaultUpDir = vec3.fromValues 0.0 0.0 1.0) :
    viewFrameOrthonormal realMath (updateView st) := by
  have hvv : vec3.squaredLength (updateView st).viewDir = 1 := by
    rw [updateView_viewDir, transformQuat_squaredLength, hq, hv, axis_x_unit]
    norm_num
  have huu : vec3.squaredLength (updateView st).upDir = 1 := by
    rw [updateView_upDir, transformQuat_squaredLength, hq, hu, fromValues_z]
    simp [vec3.squaredLength]
  have hvu : vec3.dot (updateView st).viewDir (updateView st).upDir = 0 := by
    rw [updateView_viewDir, updateView_upDir, transformQuat_dot, hq, hv, hu, fromValues_x,
      fromValues_z]
    simp [vec3.dot]
  refine ⟨(vec3_length_eq_one_iff _).mpr hvv, (vec3_length_eq_one_iff _).mpr huu, hvu, ?_, ?_⟩
  · intro hc
    have h := cross_squaredLength (updateView st).viewDir (updateView st).upDir
    rw [hc, hvv, huu, hvu] at h
    simp [vec3.squaredLength, vec3.create] at h
  · have e : vec3.distance realMath (updateView st).position
        (vec3.add (updateView st).position (updateView st).viewDir)
        = vec3.length realMath (updateView st).viewDir := by
      simp only [vec3.distance, vec3.length, vec3.add, vec3.squaredLength, add_sub_cancel_left]
    rw [e]
    exact (vec3_length_eq_one_iff _).mpr hvv

/-- Every event keeps the orientation a unit quaternion and the default vectors
what they are. -/
theorem step_unit_defaults (e : Event) (st : State ℝ)
    (h : quat.squaredLength st.rotation = 1 ∧
      st.defaultViewDir = vec3.fromValues 1.0 0.0 0.0 ∧
      st.defaultUpDir = vec3.fromValues 0.0 0.0 1.0) :
    quat.squaredLength (step realMath e st).rotation = 1 ∧
      (step realMath e st).defaultViewDir = vec3.fromValues 1.0 0.0 0.0 ∧
      (step realMath e st).defaultUpDir = vec3.fromValues 0.0 0.0 1.0 := by
  cases e with
  | tick => exact h
  | keydown keyCode =>
    have hd := keydown_defaults realMath keyCode st
    exact ⟨keydown_squaredLength keyCode st h.1, hd.1.trans h.2.1, hd.2.trans h.2.2⟩

/-- Claim C10. From every state with a unit orientation and the default vectors
`(1, 0, 0)` and `(0, 0, 1)`, and after every sequence of events from it, the frame
that `updateView` leaves for `mat4.lookAt` is orthonormal: `viewDir` and `upDir`
have length 1 and dot product 0, they are not parallel, and the look-at target
is at distance 1 from the eye; so it is in every state reachable from the
initial one. -/
theorem view_frame_orthonormal (st : State ℝ) (es : List Event)
    (hq : quat.length realMath st.rotation = 1)
    (hv : st.defaultViewDir = vec3.fromValues 1.0 0.0 0.0)
    (hu : st.defaultUpDir = vec3.fromValues 0.0 0.0 1.0) :
    viewFrameOrthonormal realMath (updateView (run realMath es st)) ∧
    viewFrameOrthonormal realMath (updateView (run realMath es (initialState realMath))) := by
  rw [length_eq_one_iff] at hq
  have key : ∀ s : State ℝ, (quat.squaredLength s.rotation = 1 ∧
      s.defaultViewDir = vec3.fromValues 1.0 0.0 0.0 ∧
      s.defaultUpDir = vec3.fromValues 0.0 0.0 1.0) →
      viewFrameOrthonormal realMath (updateView (run realMath es s)) := by
    intro s hs
    have h := run_induction realMath
      (fun s => quat.squaredLength s.rotation = 1 ∧
        s.defaultViewDir = vec3.fromValues 1.0 0.0 0.0 ∧
        s.defaultUpDir = vec3.fromValues 0.0 0.0 1.0)
      (fun e s h => step_unit_defaults e s h) es s hs
    exact updateView_orthonormal _ h.1 h.2.1 h.2.2
  exact ⟨key st ⟨hq, hv, hu⟩, key _ ⟨initialState_squaredLength, rfl, rfl⟩⟩

/-- Claim C10 at the orientation `(0, 0, 1, 0)`, after the key 87, a frame and
the key 68. -/
theorem view_frame_orthonormal_witness :
    viewFrameOrthonormal realMath
      (updateView (run realMath [Event.keydown 87, Event.tick, Event.keydown 68]
        (stateAt realMath ⟨0, 0, 1, 0⟩))) :=
  (view_frame_orthonormal (stateAt realMath ⟨0, 0, 1, 0⟩)
    [Event.keydown 87, Event.tick, Event.keydown 68]
    (by simp [stateAt, quat.length, quat.squaredLength, realMath]) rfl rfl).1

theorem MeshBuilder.length_vertices (f : HeightField α) (xMin xMax yMin yMax : α) :
    (MeshBuilder.vertices f xMin xMax yMin yMax).length = f.dim * f.dim := by
  simp [MeshBuilder.vertices]

theorem MeshBuilder.length_foldr_quads (dim : Nat) (l : List Nat) :
    (l.foldr (fun k acc =>
      MeshBuilder.quadFaces dim (k % (dim - 1)) (k / (dim - 1)) ++ acc) []).length
      = l.length * 2 := by
  induction l with
  | nil => rfl
  | cons k l ih =>
    have hq : (MeshBuilder.quadFaces dim (k % (dim - 1)) (k / (dim - 1))).length = 2 := rfl
    rw [List.foldr_cons, List.length_append, ih, List.length_cons, hq]
    ring

theorem MeshBuilder.length_faceIndices (dim : Nat) :
    (MeshBuilder.faceIndices dim).length = (dim - 1) * (dim - 1) * 2 := by
  rw [MeshBuilder.faceIndices, MeshBuilder.length_foldr_quads, List.length_range]

theorem MeshBuilder.length_accumulate (vs acc : List (Vec3 α)) (t : Nat × Nat × Nat) :
    (MeshBuilder.accumulate vs acc t).length = acc.length := by
  simp [MeshBuilder.accumulate]

theorem MeshBuilder.length_foldl_accumulate (vs : List (Vec3 α))
    (faces : List (Nat × Nat × Nat)) :
    ∀ acc : List (Vec3 α), (faces.foldl (MeshBuilder.accumulate vs) acc).length = acc.length := by
  induction faces with
  | nil => intro acc; rfl
  | cons t faces ih =>
    intro acc
    rw [List.foldl_cons, ih, MeshBuilder.length_accumulate]

theorem MeshBuilder.length_normals (m : MathObj α) (vs : List (Vec3 α))
    (faces : List (Nat × Nat × Nat)) :
    (MeshBuilder.normals m vs faces).length = vs.length := by
  simp [MeshBuilder.normals, MeshBuilder.length_foldl_accumulate]

/-- A valid dimension is at least 3. -/
theorem validDim_ge (dim : Nat) (h : validDim dim) : 3 ≤ dim := by
  obtain ⟨n, _, hn, rfl⟩ := h
  have : 2 ^ 1 ≤ 2 ^ n := Nat.pow_le_pow_right (by norm_num) hn
  omega

/-- Claim C9. For every valid grid dimension `dim`, the Mesh Builder applied to a
`dim × dim` height field succeeds, with exactly `(dim - 1) * (dim - 1) * 2`
triangles, `dim * dim` vertices and `dim * dim` normals. -/
theorem mesh_counts (m : MathObj α) (f : HeightField α) (xMin xMax yMin yMax : α)
    (h : validDim f.dim) :
    ∃ mesh : TerrainMesh α, MeshBuilder.build m f xMin xMax yMin yMax = Except.ok mesh ∧
      mesh.faceIndices.length = (f.dim - 1) * (f.dim - 1) * 2 ∧
      mesh.vertices.length = f.dim * f.dim ∧
      mesh.normals.length = f.dim * f.dim := by
  have h3 := validDim_ge f.dim h
  have h2 : ¬ f.dim < 2 := by omega
  refine ⟨_, by rw [MeshBuilder.build, if_neg h2], ?_, ?_, ?_⟩
  · exact MeshBuilder.length_faceIndices f.dim
  · exact MeshBuilder.length_vertices f xMin xMax yMin yMax
  · simp only
    rw [MeshBuilder.length_normals, MeshBuilder.length_vertices]

/-- Claim C9 on the flat 5 × 5 field over `[0, 1] × [0, 1]`: 32 triangles, 25
vertices and 25 normals. -/
theorem mesh_counts_witness :
    ∃ mesh : TerrainMesh ℚ,
      MeshBuilder.build ratMath (flatField 5) 0 1 0 1 = Except.ok mesh ∧
      mesh.faceIndices.length = (5 - 1) * (5 - 1) * 2 ∧
      mesh.vertices.length = 5 * 5 ∧
      mesh.normals.length = 5 * 5 :=
  mesh_counts ratMath (flatField 5) 0 1 0 1 ⟨2, by decide⟩

/-- On unit quaternions, the only ones the theorems below transform by, the two
releases of `vec3.transformQuat` compute the same vector. -/
theorem transformQuat_eq_later (a : Vec3 α) (q : Quat α) (hq : quat.squaredLength q = 1) :
    vec3.transformQuat a q = vec3.transformQuatLater a q := by
  simp only [quat.squaredLength] at hq
  ext <;> simp only [vec3.transformQuat, vec3.transformQuatLater]
  · linear_combination a.x * hq
  · linear_combination a.y * hq
  · linear_combination a.z * hq

end Background
